import Mathlib

/-!
Verification of a configurable Mersenne Twister (MT19937) PRNG implemented
in TypeScript (class `MT19937`, src/index.ts).

Shallow embedding: JavaScript numbers holding 32-bit words are modelled as
natural numbers below 2^32.  Every JS coercion — `>>> 0` (ToUint32) and the
implicit ToInt32 of the bitwise operators — is made explicit as a reduction
modulo 2^32.  All JS intermediate sums and products in this code stay far
below 2^53, so float64 arithmetic is exact and only the wrap points matter.
The sign of an intermediate JS number (ToInt32 centering) is unobservable:
every value leaves through `>>> 0` or a bitwise operator, so words are kept
unsigned throughout and `x << 16` followed by such a coercion is rendered
as `x * 65536` under an explicit `% 4294967296`.

Seeds are kept as `Int` (JS numbers as passed by the caller, stored
verbatim by `_init`); state words are `Nat` below 2^32.
-/

namespace MT

/-- JS `x >>> 0` on an integer-valued number: ToUint32, i.e. mod 2^32. -/
def toUint32 (x : Int) : Nat := (x % 4294967296).toNat

/-- Default state length (the `N` constant), `_STATE_LENGTH`. -/
def STATE_LENGTH : Nat := 624

/-- Default state period (the `M` constant), `_STATE_PERIOD`. -/
def STATE_PERIOD : Nat := 397

/-- Default twist matrix constant `_MATRIX_A`. -/
def MATRIX_A : Nat := 0x9908B0DF

/-- Default upper mask `_UPPER_MASK`. -/
def UPPER_MASK : Nat := 0x80000000

/-- Default lower mask `_LOWER_MASK`. -/
def LOWER_MASK : Nat := 0x7FFFFFFF

/-- Tempering mask `_TEMPERING_MASK_1`. -/
def TEMPERING_MASK_1 : Nat := 0x9D2C5680

/-- Tempering mask `_TEMPERING_MASK_2`. -/
def TEMPERING_MASK_2 : Nat := 0xEFC60000

/-- `_MAGIC_SEED`, the fixed scalar seed used by array seeding. -/
def MAGIC_SEED : Nat := 19650218

/-- The `MT19937Parameters` configuration object: each recognized option is
either present or `undefined`.  The `autoSeeder` function is modelled by
the value it returns when called. -/
structure MT19937Parameters where
  stateLength : Option Nat
  statePeriod : Option Nat
  matrixA : Option Nat
  upperMask : Option Nat
  lowerMask : Option Nat
  autoSeeder : Option Int
deriving DecidableEq

/-- The `_seed` field: a scalar JS number or an array of JS numbers,
retained verbatim. -/
inductive MTSeed where
  | num (n : Int)
  | arr (key : List Int)
deriving DecidableEq

/-- A generator instance: the five configuration constants fixed by the
constructor (`_N`, `_M`, `_MATRIX_A`, `_UPPER_MASK`, `_LOWER_MASK`) plus the
mutable `_seed`, `_stateVector`, `_stateIndex`. -/
structure MT19937 where
  stateLength : Nat
  statePeriod : Nat
  matrixA : Nat
  upperMask : Nat
  lowerMask : Nat
  seed : MTSeed
  stateVector : List Nat
  stateIndex : Nat
deriving DecidableEq

/-- Loop body of `_initWithNumber`: the state word at index `i` computed
from the word at `i - 1`.  JS computes
`(((s & 0xFFFF0000) >>> 16) * 1812433253) << 16` exactly in float64 and
wraps with ToInt32; composed with the final `>>> 0` this equals
multiplication by 2^16 modulo 2^32, written here as `* 65536` under the
outer `% 4294967296`. -/
def initNextWord (prev i : Nat) : Nat :=
  let s := prev ^^^ (prev >>> 30)
  (((s &&& 0xFFFF0000) >>> 16) * 1812433253 * 65536
    + (s &&& 0x0000FFFF) * 1812433253 + i) % 4294967296

/-- The words written by the `_initWithNumber` loop: `c` remaining
iterations starting at index `i`, given the word `prev` at index `i - 1`. -/
def initWords (prev i : Nat) : Nat → List Nat
  | 0 => []
  | c + 1 => initNextWord prev i :: initWords (initNextWord prev i) (i + 1) c

/-- `_initWithNumber`: `stateVector[0] = seed >>> 0`, then the loop fills
indices `1 .. N-1` (that is `N - 1` iterations).  The loop variable is
`_stateIndex` itself, so afterwards it equals `N` (it stays `1` when
`N ≤ 1`, hence `max N 1`). -/
def initWithNumber (g : MT19937) (seed : Int) : MT19937 :=
  { g with
    stateVector := toUint32 seed :: initWords (toUint32 seed) 1 (g.stateLength - 1)
    stateIndex := max g.stateLength 1 }

/-- One iteration of the first (`* 1664525`) mixing loop of
`_initWithArray`: returns the updated state vector and the next `i` and
`j`.  When the key is empty, `initKey[j]` is `undefined` in JS, the
addition produces `NaN`, and `>>> 0` coerces it to `0`.
Boundary: `List.set` drops a write at an index past the end of the list,
whereas the JS write `stateVector[i] = w` grows the array.  The write
index stays in range whenever `stateLength ≥ 2` (it is `0` or wraps
inside `[1, N-1]` on a length-`N` vector); only the degenerate
`stateLength ≤ 1` configurations — excluded by the spec's invariant
`0 < M < N` and by the hypotheses of the array-seeding theorems below —
reach the out-of-range case. -/
def mixBody1 (N : Nat) (key : List Int) (sv : List Nat) (i j : Nat) :
    List Nat × Nat × Nat :=
  let p := sv.getD (i - 1) 0
  let s := p ^^^ (p >>> 30)
  let m := (sv.getD i 0) ^^^
    ((((s &&& 0xFFFF0000) >>> 16) * 1664525 * 65536
      + (s &&& 0x0000FFFF) * 1664525) % 4294967296)
  let w := if key.isEmpty then 0
           else toUint32 ((m : Int) + key.getD j 0 + (j : Int))
  let sv1 := sv.set i w
  let sv2 := if i + 1 ≥ N then sv1.set 0 (sv1.getD (N - 1) 0) else sv1
  let i2 := if i + 1 ≥ N then 1 else i + 1
  let j2 := if j + 1 ≥ key.length then 0 else j + 1
  (sv2, i2, j2)

/-- The first mixing loop of `_initWithArray`; the last argument counts the
remaining iterations `k`.  Returns the state vector and the final `i`. -/
def mixPass1 (N : Nat) (key : List Int) (sv : List Nat) (i j : Nat) :
    Nat → List Nat × Nat
  | 0 => (sv, i)
  | k + 1 =>
    mixPass1 N key (mixBody1 N key sv i j).1 (mixBody1 N key sv i j).2.1
      (mixBody1 N key sv i j).2.2 k

/-- One iteration of the second (`* 1566083941`, `- i`) mixing loop of
`_initWithArray`.  The same `stateLength ≤ 1` write boundary as
`mixBody1` applies. -/
def mixBody2 (N : Nat) (sv : List Nat) (i : Nat) : List Nat × Nat :=
  let p := sv.getD (i - 1) 0
  let s := p ^^^ (p >>> 30)
  let m := (sv.getD i 0) ^^^
    ((((s &&& 0xFFFF0000) >>> 16) * 1566083941 * 65536
      + (s &&& 0x0000FFFF) * 1566083941) % 4294967296)
  let w := toUint32 ((m : Int) - (i : Int))
  let sv1 := sv.set i w
  let sv2 := if i + 1 ≥ N then sv1.set 0 (sv1.getD (N - 1) 0) else sv1
  let i2 := if i + 1 ≥ N then 1 else i + 1
  (sv2, i2)

/-- The second mixing loop of `_initWithArray`. -/
def mixPass2 (N : Nat) (sv : List Nat) (i : Nat) : Nat → List Nat × Nat
  | 0 => (sv, i)
  | k + 1 => mixPass2 N (mixBody2 N sv i).1 (mixBody2 N sv i).2 k

/-- `_initWithArray`: scalar initialization with `_MAGIC_SEED`, the
`k = max(N, key.length)` mixing pass, the `N - 1` decorrelation pass, then
`stateVector[0] = 0x80000000`.  `_stateIndex` is set (to `N`) by the inner
`_initWithNumber` call and untouched afterwards.
Boundary: the decorrelation count is the truncated `stateLength - 1`; in
JS, `for (k = this._N - 1; k; k--)` with `stateLength = 0` starts at `-1`
and never terminates, which a total function cannot express, so theorems
about array seeding assume `0 < stateLength`. -/
def initWithArray (g : MT19937) (key : List Int) : MT19937 :=
  let k0 := if g.stateLength > key.length then g.stateLength else key.length
  let g1 := initWithNumber g (MAGIC_SEED : Int)
  let r1 := mixPass1 g.stateLength key g1.stateVector 1 0 k0
  let r2 := mixPass2 g.stateLength r1.1 r1.2 (g.stateLength - 1)
  { g1 with stateVector := r2.1.set 0 0x80000000 }

/-- `_init`: store the seed verbatim in `_seed`, then dispatch on its
runtime type (`Array.isArray`). -/
def init (g : MT19937) (seed : MTSeed) : MT19937 :=
  let g1 := { g with seed := seed }
  match seed with
  | MTSeed.arr key => initWithArray g1 key
  | MTSeed.num n => initWithNumber g1 n

/-- `magic[y & 0x1]` where `magic = [0, _MATRIX_A]`. -/
def magicAt (a y : Nat) : Nat := [0, a].getD (y &&& 1) 0

/-- First regeneration loop of `randomInt32` (`kk < N - M`); the last
argument counts the remaining iterations. -/
def twistA (m a um lm : Nat) (sv : List Nat) (kk : Nat) : Nat → List Nat
  | 0 => sv
  | c + 1 =>
    let y := (sv.getD kk 0 &&& um) ||| (sv.getD (kk + 1) 0 &&& lm)
    twistA m a um lm
      (sv.set kk ((sv.getD (kk + m) 0) ^^^ (y >>> 1) ^^^ magicAt a y))
      (kk + 1) c

/-- Second regeneration loop of `randomInt32` (`N - M ≤ kk < N - 1`).  The
JS code indexes `stateVector[kk + (M - N)]` with `M - N` negative; since
`kk ≥ N - M` here, that index equals `kk + M - N`, which is what the
natural-number expression below computes. -/
def twistB (n m a um lm : Nat) (sv : List Nat) (kk : Nat) : Nat → List Nat
  | 0 => sv
  | c + 1 =>
    let y := (sv.getD kk 0 &&& um) ||| (sv.getD (kk + 1) 0 &&& lm)
    twistB n m a um lm
      (sv.set kk ((sv.getD (kk + m - n) 0) ^^^ (y >>> 1) ^^^ magicAt a y))
      (kk + 1) c

/-- The whole regeneration block of `randomInt32` (the `stateIndex ≥ N`
branch): two loops over `[0, N-M)` and `[N-M, N-1)`, then the final
wraparound step at index `N - 1`. -/
def twistSource (n m a um lm : Nat) (sv : List Nat) : List Nat :=
  let sv1 := twistA m a um lm sv 0 (n - m)
  let sv2 := twistB n m a um lm sv1 (n - m) ((n - 1) - (n - m))
  let y := (sv2.getD (n - 1) 0 &&& um) ||| (sv2.getD 0 0 &&& lm)
  sv2.set (n - 1) ((sv2.getD (m - 1) 0) ^^^ (y >>> 1) ^^^ magicAt a y)

/-- The fixed tempering transform of `randomInt32`.  Inputs are state words
below 2^32; the JS left shifts wrap to 32 bits, but both tempering masks
are below 2^32, so `&&&` discards those upper bits identically. -/
def temper (y : Nat) : Nat :=
  let y1 := y ^^^ (y >>> 11)
  let y2 := y1 ^^^ ((y1 <<< 7) &&& TEMPERING_MASK_1)
  let y3 := y2 ^^^ ((y2 <<< 15) &&& TEMPERING_MASK_2)
  y3 ^^^ (y3 >>> 18)

/-- The regeneration guard of `randomInt32`: when `stateIndex ≥ N`, twist
the state vector and reset `stateIndex = 0`. -/
def regenerated (g : MT19937) : MT19937 :=
  if g.stateIndex ≥ g.stateLength then
    { g with
      stateVector :=
        twistSource g.stateLength g.statePeriod g.matrixA g.upperMask
          g.lowerMask g.stateVector
      stateIndex := 0 }
  else g

/-- `randomInt32`: regenerate if the cursor reached `N`, read the word at
the cursor, post-increment the cursor, temper, and return `y >>> 0`. -/
def randomInt32 (g : MT19937) : Nat × MT19937 :=
  let g1 := regenerated g
  (temper (g1.stateVector.getD g1.stateIndex 0) % 4294967296,
   { g1 with stateIndex := g1.stateIndex + 1 })

/-- `randomInt31`: `randomInt32() >>> 1`. -/
def randomInt31 (g : MT19937) : Nat × MT19937 :=
  let r := randomInt32 g
  (r.1 >>> 1, r.2)

/-- The first `n` outputs of `randomInt32` and the generator after them. -/
def drawN (g : MT19937) : Nat → List Nat × MT19937
  | 0 => ([], g)
  | k + 1 =>
    let r := randomInt32 g
    let rest := drawN r.2 k
    (r.1 :: rest.1, rest.2)

/-- A constructor argument as seen by the JS runtime dispatch. -/
inductive JSArg where
  | undef
  | num (n : Int)
  | arr (key : List Int)
  | obj (p : MT19937Parameters)
deriving DecidableEq

/-- The JS view of an argument as a parameters object
(`arg !== null && typeof arg === 'object'`): a real object gives its
fields; an array also satisfies the test but all of its parameter
properties read as `undefined`; numbers and `undefined` are not objects. -/
def asParameters : JSArg → Option MT19937Parameters
  | JSArg.obj p => some p
  | JSArg.arr _ => some ⟨none, none, none, none, none, none⟩
  | _ => none

/-- The constructor `(arg1?, arg2?)`.  `env` models the value produced by
`_DEFAULT_AUTO_SEEDER()` (an ambient entropy read) when no seed and no
custom auto seeder are supplied.  Note the runtime dispatch: when `arg1`
passes the object test — which an array does — it is itself taken as the
parameters object and `arg2` is never consulted. -/
def construct (arg1 arg2 : JSArg) (env : Int) : MT19937 :=
  let seedArg : Option MTSeed :=
    match arg1 with
    | JSArg.num n => some (MTSeed.num n)
    | JSArg.arr key => some (MTSeed.arr key)
    | _ => none
  let parameters : Option MT19937Parameters :=
    match arg1 with
    | JSArg.undef => none
    | _ =>
      match asParameters arg1 with
      | some p => some p
      | none => asParameters arg2
  let seed : MTSeed :=
    match seedArg with
    | some s => s
    | none =>
      match parameters.bind MT19937Parameters.autoSeeder with
      | some v => MTSeed.num v
      | none => MTSeed.num env
  let g0 : MT19937 :=
    { stateLength := (parameters.bind MT19937Parameters.stateLength).getD STATE_LENGTH
      statePeriod := (parameters.bind MT19937Parameters.statePeriod).getD STATE_PERIOD
      matrixA := (parameters.bind MT19937Parameters.matrixA).getD MATRIX_A
      upperMask := (parameters.bind MT19937Parameters.upperMask).getD UPPER_MASK
      lowerMask := (parameters.bind MT19937Parameters.lowerMask).getD LOWER_MASK
      seed := seed
      stateVector := []
      stateIndex := (parameters.bind MT19937Parameters.stateLength).getD STATE_LENGTH + 1 }
  init g0 seed

/-- Spec §4.2, the scalar expansion formula as written in the spec:
`state_vector[i] = ((((x >> 16) * 1812433253) << 16) + (x & 0xFFFF) * 1812433253 + i) mod 2^32`
with `x = state_vector[i-1] XOR (state_vector[i-1] >> 30)`. -/
def specScalarStep (prev i : Nat) : Nat :=
  let x := prev ^^^ (prev >>> 30)
  ((x >>> 16) * 1812433253 * 65536 + (x &&& 0xFFFF) * 1812433253 + i) % 4294967296

/-- Spec §4.4, one regeneration update at index `kk` by the single modular
formula: `y = (sv[kk] & upper) | (sv[(kk+1) mod N] & lower)`;
`sv[kk] = sv[(kk+M) mod N] XOR (y >>> 1) XOR (matrix_a if y odd else 0)`. -/
def specTwistStep (n m a um lm : Nat) (sv : List Nat) (kk : Nat) : List Nat :=
  let y := (sv.getD kk 0 &&& um) ||| (sv.getD ((kk + 1) % n) 0 &&& lm)
  sv.set kk
    ((sv.getD ((kk + m) % n) 0) ^^^ (y >>> 1) ^^^ (if y &&& 1 = 1 then a else 0))

/-- The modular formula of spec §4.4 applied at consecutive indices
`kk, kk+1, …`; the last argument counts the remaining indices. -/
def specTwistLoop (n m a um lm : Nat) (sv : List Nat) (kk : Nat) :
    Nat → List Nat
  | 0 => sv
  | c + 1 => specTwistLoop n m a um lm (specTwistStep n m a um lm sv kk) (kk + 1) c

/-- Spec §4.4 regeneration: the single modular formula applied for each
`kk` in `[0, N)` in order. -/
def specTwist (n m a um lm : Nat) (sv : List Nat) : List Nat :=
  specTwistLoop n m a um lm sv 0 n

/-- Reference array-seeding mixing step, following spec §4.3 step 2:
`sv[i] = (sv[i] XOR (((x>>16)*1664525)<<16 + (x&0xFFFF)*1664525) + key[j] + j) mod 2^32`
with `x = sv[i-1] XOR (sv[i-1] >> 30)`, the stated `i`/`j` stepping and
wraparound.  All arithmetic is 32-bit truncated per §4.2. -/
def refBody1 (N : Nat) (key : List Int) (sv : List Nat) (i j : Nat) :
    List Nat × Nat × Nat :=
  let x := sv.getD (i - 1) 0 ^^^ (sv.getD (i - 1) 0 >>> 30)
  let w := toUint32
    ((((sv.getD i 0) ^^^
        (((x >>> 16) * 1664525 * 65536 + (x &&& 0xFFFF) * 1664525) % 4294967296) : Nat) : Int)
      + key.getD j 0 + (j : Int))
  let sv1 := sv.set i w
  let sv2 := if i + 1 ≥ N then sv1.set 0 (sv1.getD (N - 1) 0) else sv1
  let i2 := if i + 1 ≥ N then 1 else i + 1
  let j2 := if j + 1 ≥ key.length then 0 else j + 1
  (sv2, i2, j2)

/-- The spec §4.3 step 2 mixing pass, `k` times. -/
def refPass1 (N : Nat) (key : List Int) (sv : List Nat) (i j : Nat) :
    Nat → List Nat × Nat
  | 0 => (sv, i)
  | k + 1 =>
    refPass1 N key (refBody1 N key sv i j).1 (refBody1 N key sv i j).2.1
      (refBody1 N key sv i j).2.2 k

/-- Reference array-seeding decorrelation step, following spec §4.3 step 3:
`sv[i] = (sv[i] XOR (((x>>16)*1566083941)<<16 + (x&0xFFFF)*1566083941) - i) mod 2^32`. -/
def refBody2 (N : Nat) (sv : List Nat) (i : Nat) : List Nat × Nat :=
  let x := sv.getD (i - 1) 0 ^^^ (sv.getD (i - 1) 0 >>> 30)
  let w := toUint32
    ((((sv.getD i 0) ^^^
        (((x >>> 16) * 1566083941 * 65536 + (x &&& 0xFFFF) * 1566083941) % 4294967296) : Nat) : Int)
      - (i : Int))
  let sv1 := sv.set i w
  let sv2 := if i + 1 ≥ N then sv1.set 0 (sv1.getD (N - 1) 0) else sv1
  let i2 := if i + 1 ≥ N then 1 else i + 1
  (sv2, i2)

/-- The spec §4.3 step 3 decorrelation pass, `N - 1` times in total. -/
def refPass2 (N : Nat) (sv : List Nat) (i : Nat) : Nat → List Nat × Nat
  | 0 => (sv, i)
  | k + 1 => refPass2 N (refBody2 N sv i).1 (refBody2 N sv i).2 k

/-- The reference MT19937 array-seeding procedure (spec §4.3, the standard
`init_by_array`): baseline scalar expansion from 19650218, the
`k = max(N, key.length)` mixing pass with `i = 1`, `j = 0`, the `N - 1`
decorrelation pass keeping `i`, then `sv[0] = 0x80000000`. -/
def refInitByArray (N : Nat) (key : List Int) : List Nat :=
  let base := toUint32 (MAGIC_SEED : Int) :: initWords (toUint32 (MAGIC_SEED : Int)) 1 (N - 1)
  let r1 := refPass1 N key base 1 0 (max N key.length)
  let r2 := refPass2 N r1.1 r1.2 (N - 1)
  r2.1.set 0 0x80000000

/-- Two generators that agree on everything except the stored `_seed`
value: configuration, state vector and cursor all equal.  All output
functions read only these fields, never `_seed`. -/
def sameCore (g g' : MT19937) : Prop :=
  g.stateLength = g'.stateLength ∧ g.statePeriod = g'.statePeriod ∧
  g.matrixA = g'.matrixA ∧ g.upperMask = g'.upperMask ∧
  g.lowerMask = g'.lowerMask ∧ g.stateVector = g'.stateVector ∧
  g.stateIndex = g'.stateIndex

/-- A small concrete generator (`N = 3`, `M = 1`, default masks) used to
instantiate hypotheses of the claim theorems at evaluable inputs. -/
def gW : MT19937 :=
  ⟨3, 1, 0x9908B0DF, 0x80000000, 0x7FFFFFFF, MTSeed.num 0, [1, 2, 3], 3⟩

/-! ## Helper lemmas: 32-bit bounds and list bookkeeping -/

/-- Every word in the scalar expansion tail is reduced mod 2^32. -/
theorem initWords_lt (prev i c : Nat) : ∀ x ∈ initWords prev i c, x < 4294967296 := by
  induction c generalizing prev i with
  | zero => intro x hx; simp [initWords] at hx
  | succ c ih =>
    intro x hx
    simp only [initWords, List.mem_cons] at hx
    rcases hx with h | h
    · subst h; exact Nat.mod_lt _ (by decide)
    · exact ih _ _ x h

theorem initWords_length (prev i c : Nat) : (initWords prev i c).length = c := by
  induction c generalizing prev i with
  | zero => rfl
  | succ c ih => simp [initWords, ih]

theorem toUint32_lt (x : Int) : toUint32 x < 4294967296 := by
  have h1 : x % 4294967296 < 4294967296 := Int.emod_lt_of_pos x (by decide)
  have h2 : 0 ≤ x % 4294967296 := Int.emod_nonneg x (by decide)
  simp only [toUint32]
  omega

/-- `getD` with default `0` of an everywhere-below-2^32 list is below 2^32. -/
theorem getD_lt_of_forall {sv : List Nat} (h : ∀ x ∈ sv, x < 4294967296) (n : Nat) :
    sv.getD n 0 < 4294967296 := by
  rw [List.getD_eq_getElem?_getD]
  cases hx : sv[n]? with
  | none => simp
  | some a =>
    have := List.getElem?_mem hx
    simpa [hx] using h a this

theorem set_lt_of_forall {sv : List Nat} (h : ∀ x ∈ sv, x < 4294967296)
    {v : Nat} (hv : v < 4294967296) (n : Nat) :
    ∀ x ∈ sv.set n v, x < 4294967296 := by
  intro x hx
  rcases List.mem_or_eq_of_mem_set hx with h' | h'
  · exact h x h'
  · omega

/-- For a 32-bit value, masking the high half before shifting is the same
as shifting. -/
theorem and_hi_shiftRight {s : Nat} (h : s < 4294967296) :
    (s &&& 0xFFFF0000) >>> 16 = s >>> 16 := by
  apply Nat.eq_of_testBit_eq
  intro i
  simp only [Nat.testBit_shiftRight, Nat.testBit_and]
  rcases Nat.lt_or_ge i 16 with hi | hi
  · have hm : Nat.testBit 0xFFFF0000 (16 + i) = true := by
      interval_cases i <;> decide
    simp [hm]
  · have hs : Nat.testBit s (16 + i) = false := by
      apply Nat.testBit_eq_false_of_lt
      calc s < 4294967296 := h
        _ ≤ 2 ^ (16 + i) := by
          have : (32 : Nat) ≤ 16 + i := by omega
          calc (4294967296 : Nat) = 2 ^ 32 := by norm_num
            _ ≤ 2 ^ (16 + i) := Nat.pow_le_pow_right (by decide) this
    simp [hs]

theorem xor_lt_u32 {a b : Nat} (ha : a < 4294967296) (hb : b < 4294967296) :
    a ^^^ b < 4294967296 := by
  have : a ^^^ b < 2 ^ 32 :=
    Nat.xor_lt_two_pow (by norm_num at ha ⊢; exact ha) (by norm_num at hb ⊢; exact hb)
  norm_num at this
  exact this

theorem shiftRight_lt_u32 {a : Nat} (ha : a < 4294967296) (k : Nat) :
    a >>> k < 4294967296 := by
  have h1 : a >>> k ≤ a := by
    rw [Nat.shiftRight_eq_div_pow]
    exact Nat.div_le_self a (2 ^ k)
  omega

/-! ## Preservation of the configuration fields -/

theorem init_stateLength (g : MT19937) (s : MTSeed) :
    (init g s).stateLength = g.stateLength := by cases s <;> rfl

theorem init_stateIndex (g : MT19937) (s : MTSeed) :
    (init g s).stateIndex = max g.stateLength 1 := by cases s <;> rfl

theorem init_cfg (g : MT19937) (s : MTSeed) :
    (init g s).stateLength = g.stateLength ∧
    (init g s).statePeriod = g.statePeriod ∧
    (init g s).matrixA = g.matrixA ∧
    (init g s).upperMask = g.upperMask ∧
    (init g s).lowerMask = g.lowerMask := by
  cases s <;> exact ⟨rfl, rfl, rfl, rfl, rfl⟩

theorem randomInt32_cfg (g : MT19937) :
    (randomInt32 g).2.stateLength = g.stateLength ∧
    (randomInt32 g).2.statePeriod = g.statePeriod ∧
    (randomInt32 g).2.matrixA = g.matrixA ∧
    (randomInt32 g).2.upperMask = g.upperMask ∧
    (randomInt32 g).2.lowerMask = g.lowerMask := by
  simp only [randomInt32, regenerated]
  split <;> exact ⟨rfl, rfl, rfl, rfl, rfl⟩

theorem drawN_cfg (g : MT19937) (n : Nat) :
    (drawN g n).2.stateLength = g.stateLength ∧
    (drawN g n).2.statePeriod = g.statePeriod ∧
    (drawN g n).2.matrixA = g.matrixA ∧
    (drawN g n).2.upperMask = g.upperMask ∧
    (drawN g n).2.lowerMask = g.lowerMask := by
  induction n generalizing g with
  | zero => exact ⟨rfl, rfl, rfl, rfl, rfl⟩
  | succ n ih =>
    have h1 := ih (randomInt32 g).2
    have h2 := randomInt32_cfg g
    simp only [drawN]
    exact ⟨h1.1.trans h2.1, h1.2.1.trans h2.2.1, h1.2.2.1.trans h2.2.2.1,
      h1.2.2.2.1.trans h2.2.2.2.1, h1.2.2.2.2.trans h2.2.2.2.2⟩

/-- `_init` rebuilds the whole mutable state from the configuration and
the new seed alone: two generators with equal configuration are
indistinguishable after reseeding with the same value. -/
theorem init_eq_of_cfg : ∀ {g g' : MT19937},
    g.stateLength = g'.stateLength → g.statePeriod = g'.statePeriod →
    g.matrixA = g'.matrixA → g.upperMask = g'.upperMask →
    g.lowerMask = g'.lowerMask → ∀ s : MTSeed, init g s = init g' s := by
  intro ⟨L, M, A, U, Lo, sd, sv, ix⟩ ⟨L', M', A', U', Lo', sd', sv', ix'⟩
  intro h1 h2 h3 h4 h5 s
  dsimp only at h1 h2 h3 h4 h5
  subst h1; subst h2; subst h3; subst h4; subst h5
  cases s <;> rfl

/-- `randomInt32` never reads the stored `_seed`: it maps `sameCore`
generators to equal outputs and `sameCore` successors. -/
theorem randomInt32_sameCore : ∀ {g g' : MT19937}, sameCore g g' →
    (randomInt32 g).1 = (randomInt32 g').1 ∧
    sameCore (randomInt32 g).2 (randomInt32 g').2 := by
  intro ⟨L, M, A, U, Lo, sd, sv, ix⟩ ⟨L', M', A', U', Lo', sd', sv', ix'⟩ h
  obtain ⟨h1, h2, h3, h4, h5, h6, h7⟩ := h
  dsimp only at h1 h2 h3 h4 h5 h6 h7
  subst h1; subst h2; subst h3; subst h4; subst h5; subst h6; subst h7
  by_cases hc : ix ≥ L <;>
    simp [randomInt32, regenerated, sameCore, hc]

theorem drawN_sameCore {g g' : MT19937} (h : sameCore g g') (n : Nat) :
    (drawN g n).1 = (drawN g' n).1 ∧
    sameCore (drawN g n).2 (drawN g' n).2 := by
  induction n generalizing g g' with
  | zero => exact ⟨rfl, h⟩
  | succ n ih =>
    have hr := randomInt32_sameCore h
    have ht := ih hr.2
    simp only [drawN]
    exact ⟨by rw [hr.1, ht.1], ht.2⟩

/-! ## The scalar expansion recurrence -/

theorem toUint32_ofNat (n : Nat) : toUint32 (n : Int) = n % 4294967296 := by
  simp only [toUint32]
  omega

theorem initWords_getD_zero (prev i : Nat) {c : Nat} (hc : 0 < c) :
    (initWords prev i c).getD 0 0 = initNextWord prev i := by
  cases c with
  | zero => omega
  | succ c => rfl

theorem initWords_getD_succ : ∀ (c prev i t : Nat), t + 1 < c →
    (initWords prev i c).getD (t + 1) 0 =
      initNextWord ((initWords prev i c).getD t 0) (i + t + 1) := by
  intro c
  induction c with
  | zero => intro prev i t h; omega
  | succ c ih =>
    intro prev i t h
    cases t with
    | zero =>
      have hc : 0 < c := by omega
      simp only [initWords, List.getD_cons_succ, List.getD_cons_zero]
      rw [initWords_getD_zero _ _ hc]
    | succ t =>
      have h' : t + 1 < c := by omega
      simp only [initWords, List.getD_cons_succ]
      rw [ih _ (i + 1) t h']
      have e : i + 1 + t + 1 = i + (t + 1) + 1 := by omega
      rw [e]

/-- For 32-bit inputs the source loop body coincides with the formula as
written in the spec (unmasked `x >> 16`). -/
theorem initNextWord_spec {prev : Nat} (h : prev < 4294967296) (i : Nat) :
    initNextWord prev i = specScalarStep prev i := by
  have hs : prev ^^^ (prev >>> 30) < 4294967296 :=
    xor_lt_u32 h (shiftRight_lt_u32 h 30)
  simp only [initNextWord, specScalarStep]
  rw [and_hi_shiftRight hs]

/-! ## Array seeding versus the reference procedure -/

theorem getD_set_zero {l : List Nat} (hl : l ≠ []) (v : Nat) :
    (l.set 0 v).getD 0 0 = v := by
  cases l with
  | nil => exact absurd rfl hl
  | cons a t => rfl

/-- The write-then-wraparound shape shared by all array-seeding loop
bodies keeps every word below 2^32. -/
theorem setWrap_lt {sv : List Nat} (h : ∀ x ∈ sv, x < 4294967296)
    {w : Nat} (hw : w < 4294967296) (c : Prop) [Decidable c] (i N : Nat) :
    ∀ x ∈ (if c then (sv.set i w).set 0 ((sv.set i w).getD (N - 1) 0)
           else sv.set i w), x < 4294967296 := by
  have h1 := set_lt_of_forall h hw i
  split
  · exact set_lt_of_forall h1 (getD_lt_of_forall h1 _) 0
  · exact h1

theorem mixBody1_lt (N : Nat) (key : List Int) (sv : List Nat) (i j : Nat)
    (h : ∀ x ∈ sv, x < 4294967296) :
    ∀ x ∈ (mixBody1 N key sv i j).1, x < 4294967296 := by
  simp only [mixBody1]
  refine setWrap_lt h ?_ _ _ _
  split
  · decide
  · exact toUint32_lt _

theorem mixBody1_len (N : Nat) (key : List Int) (sv : List Nat) (i j : Nat) :
    (mixBody1 N key sv i j).1.length = sv.length := by
  simp only [mixBody1]
  split <;> simp

theorem mixBody2_lt (N : Nat) (sv : List Nat) (i : Nat)
    (h : ∀ x ∈ sv, x < 4294967296) :
    ∀ x ∈ (mixBody2 N sv i).1, x < 4294967296 := by
  simp only [mixBody2]
  exact setWrap_lt h (toUint32_lt _) _ _ _

theorem mixBody2_len (N : Nat) (sv : List Nat) (i : Nat) :
    (mixBody2 N sv i).1.length = sv.length := by
  simp only [mixBody2]
  split <;> simp

/-- For a non-empty key and 32-bit state words, the source loop body is
exactly the spec §4.3 step-2 body. -/
theorem mixBody1_eq_ref (N : Nat) (key : List Int) (sv : List Nat) (i j : Nat)
    (hkey : key ≠ []) (h : ∀ x ∈ sv, x < 4294967296) :
    mixBody1 N key sv i j = refBody1 N key sv i j := by
  have hne : key.isEmpty = false := by
    cases key with
    | nil => exact absurd rfl hkey
    | cons a t => rfl
  have hp : sv.getD (i - 1) 0 < 4294967296 := getD_lt_of_forall h _
  have hs : sv.getD (i - 1) 0 ^^^ (sv.getD (i - 1) 0 >>> 30) < 4294967296 :=
    xor_lt_u32 hp (shiftRight_lt_u32 hp 30)
  simp only [mixBody1, refBody1]
  rw [and_hi_shiftRight hs]
  simp [hne]

/-- For 32-bit state words, the source decorrelation body is exactly the
spec §4.3 step-3 body. -/
theorem mixBody2_eq_ref (N : Nat) (sv : List Nat) (i : Nat)
    (h : ∀ x ∈ sv, x < 4294967296) :
    mixBody2 N sv i = refBody2 N sv i := by
  have hp : sv.getD (i - 1) 0 < 4294967296 := getD_lt_of_forall h _
  have hs : sv.getD (i - 1) 0 ^^^ (sv.getD (i - 1) 0 >>> 30) < 4294967296 :=
    xor_lt_u32 hp (shiftRight_lt_u32 hp 30)
  simp only [mixBody2, refBody2]
  rw [and_hi_shiftRight hs]

theorem mixPass1_lt (N : Nat) (key : List Int) :
    ∀ (k : Nat) (sv : List Nat) (i j : Nat), (∀ x ∈ sv, x < 4294967296) →
      ∀ x ∈ (mixPass1 N key sv i j k).1, x < 4294967296 := by
  intro k
  induction k with
  | zero => intro sv i j h; exact h
  | succ k ih =>
    intro sv i j h
    simp only [mixPass1]
    exact ih _ _ _ (mixBody1_lt N key sv i j h)

theorem mixPass1_len (N : Nat) (key : List Int) :
    ∀ (k : Nat) (sv : List Nat) (i j : Nat),
      (mixPass1 N key sv i j k).1.length = sv.length := by
  intro k
  induction k with
  | zero => intro sv i j; rfl
  | succ k ih =>
    intro sv i j
    simp only [mixPass1]
    rw [ih, mixBody1_len]

theorem mixPass2_lt (N : Nat) :
    ∀ (k : Nat) (sv : List Nat) (i : Nat), (∀ x ∈ sv, x < 4294967296) →
      ∀ x ∈ (mixPass2 N sv i k).1, x < 4294967296 := by
  intro k
  induction k with
  | zero => intro sv i h; exact h
  | succ k ih =>
    intro sv i h
    simp only [mixPass2]
    exact ih _ _ (mixBody2_lt N sv i h)

theorem mixPass2_len (N : Nat) :
    ∀ (k : Nat) (sv : List Nat) (i : Nat),
      (mixPass2 N sv i k).1.length = sv.length := by
  intro k
  induction k with
  | zero => intro sv i; rfl
  | succ k ih =>
    intro sv i
    simp only [mixPass2]
    rw [ih, mixBody2_len]

theorem mixPass1_eq_ref (N : Nat) (key : List Int) (hkey : key ≠ []) :
    ∀ (k : Nat) (sv : List Nat) (i j : Nat), (∀ x ∈ sv, x < 4294967296) →
      mixPass1 N key sv i j k = refPass1 N key sv i j k := by
  intro k
  induction k with
  | zero => intro sv i j _; rfl
  | succ k ih =>
    intro sv i j h
    have hb := mixBody1_eq_ref N key sv i j hkey h
    simp only [mixPass1, refPass1, ← hb]
    exact ih _ _ _ (mixBody1_lt N key sv i j h)

theorem mixPass2_eq_ref (N : Nat) :
    ∀ (k : Nat) (sv : List Nat) (i : Nat), (∀ x ∈ sv, x < 4294967296) →
      mixPass2 N sv i k = refPass2 N sv i k := by
  intro k
  induction k with
  | zero => intro sv i _; rfl
  | succ k ih =>
    intro sv i h
    have hb := mixBody2_eq_ref N sv i h
    simp only [mixPass2, refPass2, ← hb]
    exact ih _ _ (mixBody2_lt N sv i h)

/-! ## The three-range twist versus the single modular formula -/

theorem magicAt_eq (a y : Nat) : magicAt a y = if y &&& 1 = 1 then a else 0 := by
  have h : y &&& 1 ≤ 1 := Nat.and_le_right
  rcases Nat.le_one_iff_eq_zero_or_eq_one.mp h with h0 | h0 <;>
    simp [magicAt, h0]

theorem specLoop_add (n m a um lm : Nat) :
    ∀ (c1 c2 kk : Nat) (sv : List Nat),
      specTwistLoop n m a um lm sv kk (c1 + c2) =
        specTwistLoop n m a um lm (specTwistLoop n m a um lm sv kk c1) (kk + c1) c2 := by
  intro c1
  induction c1 with
  | zero => intro c2 kk sv; simp [specTwistLoop]
  | succ c1 ih =>
    intro c2 kk sv
    have e : c1 + 1 + c2 = (c1 + c2) + 1 := by omega
    rw [e]
    simp only [specTwistLoop]
    rw [ih c2 (kk + 1)]
    have e2 : kk + 1 + c1 = kk + (c1 + 1) := by omega
    rw [e2]

/-- On `[0, N-M)` the first source loop agrees with the modular formula:
all indices are already in range. -/
theorem twistA_spec (n m a um lm : Nat) (hm : 0 < m) :
    ∀ (c kk : Nat) (sv : List Nat), kk + c + m ≤ n →
      twistA m a um lm sv kk c = specTwistLoop n m a um lm sv kk c := by
  intro c
  induction c with
  | zero => intro kk sv _; rfl
  | succ c ih =>
    intro kk sv h
    have hk1 : (kk + 1) % n = kk + 1 := Nat.mod_eq_of_lt (by omega)
    have hkm : (kk + m) % n = kk + m := Nat.mod_eq_of_lt (by omega)
    simp only [twistA, specTwistLoop, specTwistStep, hk1, hkm, magicAt_eq]
    exact ih (kk + 1) _ (by omega)

/-- On `[N-M, N-1)` the second source loop (index `kk + M - N`) agrees with
the modular formula, because there `(kk + M) mod N = kk + M - N`. -/
theorem twistB_spec (n m a um lm : Nat) (hmn : m ≤ n) :
    ∀ (c kk : Nat) (sv : List Nat), n ≤ kk + m → kk + c + 1 ≤ n →
      twistB n m a um lm sv kk c = specTwistLoop n m a um lm sv kk c := by
  intro c
  induction c with
  | zero => intro kk sv _ _; rfl
  | succ c ih =>
    intro kk sv h1 h2
    have hk1 : (kk + 1) % n = kk + 1 := Nat.mod_eq_of_lt (by omega)
    have hkm : (kk + m) % n = kk + m - n := by
      rw [Nat.mod_eq_sub_mod h1, Nat.mod_eq_of_lt (by omega)]
    simp only [twistB, specTwistLoop, specTwistStep, hk1, hkm, magicAt_eq]
    exact ih (kk + 1) _ (by omega) (by omega)

/-- At the last index the modular formula reads `sv[0]` and `sv[M-1]`,
exactly as the final source step does. -/
theorem specTwistStep_last (n m a um lm : Nat) (sv : List Nat)
    (h1 : 0 < m) (h2 : m < n) :
    specTwistStep n m a um lm sv (n - 1) =
      sv.set (n - 1) ((sv.getD (m - 1) 0) ^^^
        ((((sv.getD (n - 1) 0 &&& um) ||| (sv.getD 0 0 &&& lm)) >>> 1)) ^^^
        magicAt a ((sv.getD (n - 1) 0 &&& um) ||| (sv.getD 0 0 &&& lm))) := by
  have ha : (n - 1 + 1) % n = 0 := by
    have e : n - 1 + 1 = n := by omega
    rw [e, Nat.mod_self]
  have hb : (n - 1 + m) % n = m - 1 := by
    rw [Nat.mod_eq_sub_mod (by omega)]
    have e : n - 1 + m - n = m - 1 := by omega
    rw [e, Nat.mod_eq_of_lt (by omega)]
  simp only [specTwistStep, ha, hb, magicAt_eq]

/-! ## Claim theorems -/

/-- C3: under `0 < M < N`, the regeneration block implemented as the three
index ranges `[0, N-M)`, `[N-M, N-1)` and the final index `N-1` produces,
for every starting state vector, exactly the state produced by applying the
single modular formula (`specTwistStep`) at each `kk` in `[0, N)`. -/
theorem twist_three_ranges_eq_modular (n m a um lm : Nat) (sv : List Nat)
    (h1 : 0 < m) (h2 : m < n) :
    twistSource n m a um lm sv = specTwist n m a um lm sv := by
  have e2 : (n - 1) - (n - m) = m - 1 := by omega
  have hA := twistA_spec n m a um lm h1 (n - m) 0 sv (by omega)
  have hsplit : specTwistLoop n m a um lm sv 0 n =
      specTwistStep n m a um lm
        (specTwistLoop n m a um lm
          (specTwistLoop n m a um lm sv 0 (n - m)) (n - m) (m - 1)) (n - 1) := by
    have hn : n = (n - m) + ((m - 1) + 1) := by omega
    calc specTwistLoop n m a um lm sv 0 n
        = specTwistLoop n m a um lm sv 0 ((n - m) + ((m - 1) + 1)) := by rw [← hn]
      _ = specTwistLoop n m a um lm
            (specTwistLoop n m a um lm sv 0 (n - m)) (0 + (n - m)) ((m - 1) + 1) :=
          specLoop_add n m a um lm (n - m) ((m - 1) + 1) 0 sv
      _ = specTwistLoop n m a um lm
            (specTwistLoop n m a um lm sv 0 (n - m)) (n - m) ((m - 1) + 1) := by
          rw [Nat.zero_add]
      _ = specTwistLoop n m a um lm
            (specTwistLoop n m a um lm
              (specTwistLoop n m a um lm sv 0 (n - m)) (n - m) (m - 1))
            ((n - m) + (m - 1)) 1 :=
          specLoop_add n m a um lm (m - 1) 1 (n - m) _
      _ = specTwistStep n m a um lm
            (specTwistLoop n m a um lm
              (specTwistLoop n m a um lm sv 0 (n - m)) (n - m) (m - 1))
            ((n - m) + (m - 1)) := rfl
      _ = specTwistStep n m a um lm
            (specTwistLoop n m a um lm
              (specTwistLoop n m a um lm sv 0 (n - m)) (n - m) (m - 1))
            (n - 1) := by
          have e : (n - m) + (m - 1) = n - 1 := by omega
          rw [e]
  have hB := twistB_spec n m a um lm (le_of_lt h2) (m - 1) (n - m)
    (specTwistLoop n m a um lm sv 0 (n - m)) (by omega) (by omega)
  simp only [twistSource, specTwist]
  rw [e2, hA, hB, hsplit,
    specTwistStep_last n m a um lm _ h1 h2]

/-- C1: for every non-empty key, array seeding — scalar init with
19650218, the `max(N, key.length)`-iteration `* 1664525` mixing pass
adding `key[j] + j`, the `N-1`-iteration `* 1566083941` decorrelation pass
subtracting `i`, then forcing `state_vector[0] = 0x80000000` — produces
bit-for-bit the reference `init_by_array` state (`refInitByArray`), leaves
`state_index = N`, and leaves `state_vector[0] = 0x80000000 ≠ 0`. -/
theorem array_init_matches_reference (g : MT19937) (key : List Int)
    (hkey : key ≠ []) (hN : 1 < g.stateLength) :
    (initWithArray g key).stateVector = refInitByArray g.stateLength key ∧
    (initWithArray g key).stateIndex = g.stateLength ∧
    (initWithArray g key).stateVector.getD 0 0 = 0x80000000 ∧
    (initWithArray g key).stateVector.getD 0 0 ≠ 0 := by
  have hmax : (if g.stateLength > key.length then g.stateLength else key.length)
      = max g.stateLength key.length := by
    split <;> omega
  have hbase : ∀ x ∈ toUint32 (MAGIC_SEED : Int) ::
      initWords (toUint32 (MAGIC_SEED : Int)) 1 (g.stateLength - 1),
      x < 4294967296 := by
    intro x hx
    rcases List.mem_cons.mp hx with h | h
    · subst h; exact toUint32_lt _
    · exact initWords_lt _ _ _ x h
  have hvec : (initWithArray g key).stateVector = refInitByArray g.stateLength key := by
    simp only [initWithArray, initWithNumber, refInitByArray, hmax]
    rw [mixPass2_eq_ref g.stateLength (g.stateLength - 1) _ _
      (mixPass1_lt g.stateLength key (max g.stateLength key.length) _ 1 0 hbase)]
    rw [mixPass1_eq_ref g.stateLength key hkey (max g.stateLength key.length) _ 1 0 hbase]
  have hzero : (initWithArray g key).stateVector.getD 0 0 = 0x80000000 := by
    simp only [initWithArray, initWithNumber]
    apply getD_set_zero
    apply List.ne_nil_of_length_pos
    rw [mixPass2_len, mixPass1_len, List.length_cons, initWords_length]
    omega
  refine ⟨hvec, ?_, hzero, by rw [hzero]; decide⟩
  simp only [initWithArray, initWithNumber]
  omega

/-- C2: scalar initialization from a 32-bit seed `s0` sets
`state_vector[0] = s0`, fills each later word by the spec §4.2 recurrence
(`specScalarStep`, all arithmetic mod 2^32 with logical shifts), and leaves
`state_index = N`. -/
theorem scalar_init_formula (g : MT19937) (s0 : Nat) (hs : s0 < 4294967296)
    (hN : 0 < g.stateLength) :
    (initWithNumber g (s0 : Int)).stateVector.getD 0 0 = s0 ∧
    (initWithNumber g (s0 : Int)).stateIndex = g.stateLength ∧
    ∀ i, 1 ≤ i → i < g.stateLength →
      (initWithNumber g (s0 : Int)).stateVector.getD i 0 =
        specScalarStep ((initWithNumber g (s0 : Int)).stateVector.getD (i - 1) 0) i := by
  have hu : toUint32 (s0 : Int) = s0 := by rw [toUint32_ofNat]; omega
  refine ⟨?_, ?_, ?_⟩
  · simp [initWithNumber, hu]
  · simp only [initWithNumber]
    omega
  · intro i h1 h2
    obtain ⟨t, rfl⟩ : ∃ t, i = t + 1 := ⟨i - 1, by omega⟩
    simp only [initWithNumber, hu, List.getD_cons_succ, Nat.add_sub_cancel]
    have hwords := initWords_lt s0 1 (g.stateLength - 1)
    cases t with
    | zero =>
      have hc : 0 < g.stateLength - 1 := by omega
      rw [initWords_getD_zero _ _ hc]
      simp only [List.getD_cons_zero]
      exact initNextWord_spec hs 1
    | succ t =>
      have h' : t + 1 < g.stateLength - 1 := by omega
      rw [initWords_getD_succ _ _ _ _ h']
      simp only [List.getD_cons_succ]
      have hb : (initWords s0 1 (g.stateLength - 1)).getD t 0 < 4294967296 :=
        getD_lt_of_forall hwords t
      have e : 1 + t + 1 = t + 1 + 1 := by omega
      rw [e]
      exact initNextWord_spec hb (t + 1 + 1)

/-- C7: for every generator state, `randomInt32` returns the tempered word
coerced by `>>> 0`, hence a value in `[0, 4294967295]`, and `randomInt31`
returns exactly `randomInt32() >>> 1`, a value in `[0, 2147483647]`. -/
theorem randomInt32_range_and_int31 (g : MT19937) :
    (randomInt32 g).1 ≤ 4294967295 ∧
    (randomInt32 g).1 =
      temper ((regenerated g).stateVector.getD (regenerated g).stateIndex 0) % 4294967296 ∧
    randomInt31 g = ((randomInt32 g).1 >>> 1, (randomInt32 g).2) ∧
    (randomInt31 g).1 ≤ 2147483647 := by
  have hv : (randomInt32 g).1 < 4294967296 := by
    simp only [randomInt32]
    exact Nat.mod_lt _ (by decide)
  refine ⟨by omega, rfl, rfl, ?_⟩
  have h31 : (randomInt31 g).1 = (randomInt32 g).1 >>> 1 := rfl
  rw [h31, Nat.shiftRight_eq_div_pow]
  calc (randomInt32 g).1 / 2 ^ 1 ≤ 4294967295 / 2 ^ 1 :=
        Nat.div_le_div_right (by omega)
    _ = 2147483647 := by norm_num

/-- C8: reading `seed` right after construction with an explicit seed, or
right after assigning it, returns exactly the value passed — scalar as the
same scalar (however non-canonical), array as the same array. -/
theorem seed_round_trip (n : Int) (key : List Int) (a2 : JSArg) (env : Int)
    (g : MT19937) (s : MTSeed) :
    (construct (JSArg.num n) a2 env).seed = MTSeed.num n ∧
    (construct (JSArg.arr key) a2 env).seed = MTSeed.arr key ∧
    (init g s).seed = s := by
  refine ⟨rfl, rfl, ?_⟩
  cases s <;> rfl

/-- C4 (divergence witness): constructing with an array seed and an
explicit configuration object ignores the configuration entirely — the
array itself passes the `typeof 'object'` test and is taken as the
parameters object, so every accessor returns its default instead of the
supplied value. -/
theorem construct_array_config_ignored :
    (construct (JSArg.arr [1]) (JSArg.obj ⟨some 9, some 5, some 1, some 2, some 3, none⟩)
      0).stateLength = 624 ∧
    (construct (JSArg.arr [1]) (JSArg.obj ⟨some 9, some 5, some 1, some 2, some 3, none⟩)
      0).statePeriod = 397 ∧
    (construct (JSArg.arr [1]) (JSArg.obj ⟨some 9, some 5, some 1, some 2, some 3, none⟩)
      0).matrixA = 0x9908B0DF ∧
    (construct (JSArg.arr [1]) (JSArg.obj ⟨some 9, some 5, some 1, some 2, some 3, none⟩)
      0).upperMask = 0x80000000 ∧
    (construct (JSArg.arr [1]) (JSArg.obj ⟨some 9, some 5, some 1, some 2, some 3, none⟩)
      0).lowerMask = 0x7FFFFFFF ∧
    (construct (JSArg.arr [1]) (JSArg.obj ⟨some 9, some 5, some 1, some 2, some 3, none⟩)
      0).seed = MTSeed.arr [1] :=
  ⟨rfl, rfl, rfl, rfl, rfl, rfl⟩

/-- C5 (counterexample): construction does not fail fast.  A configuration
with `statePeriod = 0` — outside `(0, stateLength)` — is accepted and
initialization completes normally, and so is an empty seed sequence. -/
theorem construct_no_failfast_example :
    (construct (JSArg.num 1) (JSArg.obj ⟨some 4, some 0, none, none, none, none⟩)
      0).statePeriod = 0 ∧
    (construct (JSArg.num 1) (JSArg.obj ⟨some 4, some 0, none, none, none, none⟩)
      0).stateIndex = 4 ∧
    (construct (JSArg.arr []) JSArg.undef 0).stateIndex = 624 := by
  refine ⟨rfl, by decide, by decide⟩

/-- C5 (amended): a configuration whose `statePeriod` lies outside
`(0, stateLength)` and an empty seed sequence are accepted silently rather
than rejected: construction with any parameters object completes with the
out-of-range values stored verbatim, and reseeding with the empty sequence
completes normally with the cursor at `N`.  (Scalar initialization
terminates in JS for every `stateLength`; the empty-sequence conjunct
assumes `0 < stateLength` because at `stateLength = 0` the JS
decorrelation loop `for (k = N - 1; k; k--)` starts at `-1` and never
terminates, a case the total model cannot express.) -/
theorem construct_never_fails (p : MT19937Parameters) (n env : Int)
    (g : MT19937) (hN : 0 < g.stateLength) :
    (construct (JSArg.num n) (JSArg.obj p) env).statePeriod =
      p.statePeriod.getD STATE_PERIOD ∧
    (construct (JSArg.num n) (JSArg.obj p) env).stateLength =
      p.stateLength.getD STATE_LENGTH ∧
    (construct (JSArg.num n) (JSArg.obj p) env).stateIndex =
      max (p.stateLength.getD STATE_LENGTH) 1 ∧
    (init g (MTSeed.arr [])).stateIndex = g.stateLength := by
  refine ⟨rfl, rfl, rfl, ?_⟩
  rw [init_stateIndex]
  omega

/-- C9: the cursor invariant.  Immediately after reseeding (and after
construction, which ends in `_init`) `stateIndex = N`; one call to
`randomInt32` from any state with `stateIndex ≤ N` leaves the cursor in
`[1, N]`; the index actually read is `stateIndex - 1` after the call and
is always `< N`; and a cursor `≥ N` triggers regeneration, so the word
read is then index `0` and the cursor ends at `1`. -/
theorem stateIndex_invariant (g : MT19937) (s : MTSeed) (hN : 0 < g.stateLength)
    (hidx : g.stateIndex ≤ g.stateLength) :
    (init g s).stateIndex = g.stateLength ∧
    (∀ a1 a2 : JSArg, ∀ env : Int, 0 < (construct a1 a2 env).stateLength →
      (construct a1 a2 env).stateIndex = (construct a1 a2 env).stateLength) ∧
    1 ≤ (randomInt32 g).2.stateIndex ∧
    (randomInt32 g).2.stateIndex ≤ g.stateLength ∧
    (randomInt32 g).2.stateIndex - 1 < g.stateLength ∧
    (g.stateLength ≤ g.stateIndex → (randomInt32 g).2.stateIndex = 1) := by
  have hconstruct : ∀ a1 a2 : JSArg, ∀ env : Int,
      0 < (construct a1 a2 env).stateLength →
      (construct a1 a2 env).stateIndex = (construct a1 a2 env).stateLength := by
    intro a1 a2 env h
    simp only [construct] at h ⊢
    rw [init_stateIndex] at *
    rw [init_stateLength] at *
    omega
  refine ⟨by rw [init_stateIndex]; omega, hconstruct, ?_, ?_, ?_, ?_⟩ <;>
    · simp only [randomInt32, regenerated]
      split <;> first
        | (dsimp only; omega)
        | omega

/-- C6: assigning the seed re-runs `_init` and discards all prior state —
reseeding a generator with the same value it was reseeded with before,
after any number of draws, restores the exact same generator, so the same
output sequence follows (any output function is a deterministic function
of the generator value, so equal generators give equal sequences).
The hypothesis `1 < stateLength` excludes the two degenerate
configurations where JS array reseeding is not a pure function of
configuration and seed: at `stateLength = 0` the decorrelation loop never
terminates, and at `stateLength = 1` the mixing pass writes
`stateVector[1]` past the end of the array and that word persists into
the next reseed, making reseeding stateful.  The spec's own invariant
`0 < M < N` (§3) forces `N ≥ 2`, so no spec-valid configuration is
excluded. -/
theorem reseed_resets_stream (g : MT19937) (s : MTSeed) (n : Nat)
    (_hN : 1 < g.stateLength) :
    init (drawN (init g s) n).2 s = init g s ∧
    drawN (init (drawN (init g s) n).2 s) n = drawN (init g s) n := by
  have hd := drawN_cfg (init g s) n
  have hi := init_cfg g s
  have heq : init (drawN (init g s) n).2 s = init g s :=
    init_eq_of_cfg (hd.1.trans hi.1) (hd.2.1.trans hi.2.1)
      (hd.2.2.1.trans hi.2.2.1) (hd.2.2.2.1.trans hi.2.2.2.1)
      (hd.2.2.2.2.trans hi.2.2.2.2) s
  exact ⟨heq, by rw [heq]⟩

/-- C10: scalar seeds are consumed modulo 2^32.  Two scalar seeds with the
same `>>> 0` value (such as `-1` and `4294967295`) produce identical state
vectors, cursors and output sequences under the same configuration, while
the seed accessor still returns the two distinct raw values. -/
theorem scalar_seed_mod_u32 (g : MT19937) (s t : Int)
    (h : toUint32 s = toUint32 t) (n : Nat) :
    (drawN (init g (MTSeed.num s)) n).1 = (drawN (init g (MTSeed.num t)) n).1 ∧
    (init g (MTSeed.num s)).stateVector = (init g (MTSeed.num t)).stateVector ∧
    (init g (MTSeed.num s)).stateIndex = (init g (MTSeed.num t)).stateIndex ∧
    (init g (MTSeed.num s)).seed = MTSeed.num s ∧
    (init g (MTSeed.num t)).seed = MTSeed.num t := by
  have hsv : (init g (MTSeed.num s)).stateVector = (init g (MTSeed.num t)).stateVector := by
    simp only [init, initWithNumber, h]
  have hcore : sameCore (init g (MTSeed.num s)) (init g (MTSeed.num t)) :=
    ⟨rfl, rfl, rfl, rfl, rfl, hsv, rfl⟩
  exact ⟨(drawN_sameCore hcore n).1, hsv, rfl, rfl, rfl⟩

/-! ## Witnesses -/

theorem array_init_matches_reference_witness :
    ([3] : List Int) ≠ [] ∧ 1 < gW.stateLength ∧
    (initWithArray gW [3]).stateVector = refInitByArray gW.stateLength [3] ∧
    (initWithArray gW [3]).stateVector.getD 0 0 = 0x80000000 :=
  ⟨by decide, by decide,
    (array_init_matches_reference gW [3] (by decide) (by decide)).1,
    (array_init_matches_reference gW [3] (by decide) (by decide)).2.2.1⟩

theorem twist_three_ranges_eq_modular_witness :
    0 < 1 ∧ 1 < 3 ∧
    twistSource 3 1 0x9908B0DF 0x80000000 0x7FFFFFFF [11, 22, 33] =
      specTwist 3 1 0x9908B0DF 0x80000000 0x7FFFFFFF [11, 22, 33] :=
  ⟨by decide, by decide,
    twist_three_ranges_eq_modular 3 1 0x9908B0DF 0x80000000 0x7FFFFFFF
      [11, 22, 33] (by decide) (by decide)⟩

theorem scalar_init_formula_witness :
    (7 : Nat) < 4294967296 ∧ 0 < gW.stateLength ∧
    (initWithNumber gW ((7 : Nat) : Int)).stateVector.getD 1 0 =
      specScalarStep ((initWithNumber gW ((7 : Nat) : Int)).stateVector.getD 0 0) 1 :=
  ⟨by decide, by decide,
    (scalar_init_formula gW 7 (by decide) (by decide)).2.2 1 (by decide) (by decide)⟩

theorem stateIndex_invariant_witness :
    0 < gW.stateLength ∧ gW.stateIndex ≤ gW.stateLength ∧
    (init gW (MTSeed.num 9)).stateIndex = gW.stateLength ∧
    1 ≤ (randomInt32 gW).2.stateIndex :=
  ⟨by decide, by decide,
    (stateIndex_invariant gW (MTSeed.num 9) (by decide) (by decide)).1,
    (stateIndex_invariant gW (MTSeed.num 9) (by decide) (by decide)).2.2.1⟩

theorem reseed_resets_stream_witness :
    1 < gW.stateLength ∧
    drawN (init (drawN (init gW (MTSeed.num 5)) 2).2 (MTSeed.num 5)) 2 =
      drawN (init gW (MTSeed.num 5)) 2 :=
  ⟨by decide, (reseed_resets_stream gW (MTSeed.num 5) 2 (by decide)).2⟩

theorem construct_never_fails_witness :
    0 < gW.stateLength ∧
    (construct (JSArg.num 1)
      (JSArg.obj ⟨some 4, some 0, none, none, none, none⟩) 0).statePeriod = 0 ∧
    (init gW (MTSeed.arr [])).stateIndex = gW.stateLength :=
  ⟨by decide,
    (construct_never_fails ⟨some 4, some 0, none, none, none, none⟩ 1 0 gW
      (by decide)).1,
    (construct_never_fails ⟨some 4, some 0, none, none, none, none⟩ 1 0 gW
      (by decide)).2.2.2⟩

theorem scalar_seed_mod_u32_witness :
    toUint32 (-1) = toUint32 4294967295 ∧
    (drawN (init gW (MTSeed.num (-1))) 2).1 =
      (drawN (init gW (MTSeed.num 4294967295)) 2).1 :=
  ⟨by decide, (scalar_seed_mod_u32 gW (-1) 4294967295 (by decide) 2).1⟩

end MT
